import Mathlib

/-!
Verification of the copilot-cli stack-lifecycle core: the environment-controller
custom-resource reconciler, the service stack deployer with its error
classification, and the environment init/delete orchestrators.

Go strings are embedded as `List Char` (Go strings are byte sequences; all the
embedded code treats them as sequences of characters).  Collaborator calls
(CloudFormation, IAM, the SSM config store, the resource-groups tagging API)
are embedded as explicit world records supplying each call's outcome, and the
embedded functions additionally return the list of calls they made, so that
claims about which control-plane calls happen, and in which order, are
statable.
-/

set_option maxRecDepth 10000

/-- Go strings, embedded as lists of characters. -/
abbrev GoStr := List Char

/-- Literal Go string from a Lean string literal. -/
def gs (s : String) : GoStr := s.data

/-- Go `strings.Join(elems, sep)`. -/
def goJoin (sep : GoStr) : List GoStr → GoStr
  | [] => []
  | [x] => x
  | x :: y :: t => x ++ sep ++ goJoin sep (y :: t)

/-- Go `strings.Contains(s, sub)`. -/
def goContains (s sub : GoStr) : Bool := decide (sub <:+: s)

/-- Index of the first occurrence of `sep` in a string, if any. -/
def firstOccur (sep : GoStr) : GoStr → Option Nat
  | [] => if sep.isPrefixOf [] then some 0 else none
  | c :: rest =>
    if sep.isPrefixOf (c :: rest) then some 0
    else (firstOccur sep rest).map (· + 1)

/-- Fuelled worker for `goSplit`; the fuel bounds the number of separator
occurrences, which is at most the length of the string. -/
def goSplitFuel (sep : GoStr) : Nat → GoStr → List GoStr
  | 0, s => [s]
  | fuel + 1, s =>
    match firstOccur sep s with
    | none => [s]
    | some i => s.take i :: goSplitFuel sep fuel (s.drop (i + sep.length))

/-- Go `strings.Split(s, sep)` for a non-empty separator: split around every
non-overlapping occurrence of `sep`, scanning left to right. -/
def goSplit (sep s : GoStr) : List GoStr :=
  if sep = [] then [s] else goSplitFuel sep s.length s

/-- A Go error value.  `basic` carries a rendered message; `alreadyExists` and
`notFound` are the two typed conditions the gateway distinguishes
(`ErrStackAlreadyExists`, `ErrStackNotFound`); `wrap` is
`fmt.Errorf("%w: <suffix>", inner, ...)` and `wrapIn` is
`fmt.Errorf("<pre>: %w", inner)`. -/
inductive GoErr where
  | basic (msg : GoStr)
  | alreadyExists (msg : GoStr)
  | notFound (msg : GoStr)
  | wrap (inner : GoErr) (suffix : GoStr)
  | wrapIn (pre : GoStr) (inner : GoErr)
  deriving DecidableEq

/-- The rendered message of a Go error (its `Error()` string). -/
def GoErr.message : GoErr → GoStr
  | .basic m => m
  | .alreadyExists m => m
  | .notFound m => m
  | .wrap inner suffix => inner.message ++ gs ": " ++ suffix
  | .wrapIn pre inner => pre ++ inner.message

/-- Go `errors.As(err, &target)` reaching for `ErrStackAlreadyExists`:
walks the wrap chain. -/
def GoErr.isAlreadyExists : GoErr → Bool
  | .alreadyExists _ => true
  | .wrap inner _ => inner.isAlreadyExists
  | .wrapIn _ inner => inner.isAlreadyExists
  | _ => false

/-- Go `errors.As(err, &target)` reaching for `ErrStackNotFound`:
walks the wrap chain. -/
def GoErr.isNotFound : GoErr → Bool
  | .notFound _ => true
  | .wrap inner _ => inner.isNotFound
  | .wrapIn _ inner => inner.isNotFound
  | _ => false

/-- Whether an error is, or wraps (through any chain of `wrap`/`wrapIn`),
the error `t` — "the returned error still wraps the original". -/
def GoErr.unwrapsTo : GoErr → GoErr → Bool
  | e, t =>
    e = t ||
      match e with
      | .wrap inner _ => inner.unwrapsTo t
      | .wrapIn _ inner => inner.unwrapsTo t
      | _ => false

/-! ## EnvironmentControllerReconciler

The handler source (`cf-custom-resources/lib/env-controller.js`) is not part of
the provided sources; only its test suite
(`cf-custom-resources/test/env-controller-test.js`) is.  The definitions below
are therefore modelled from the spec (§4.2) with each behavior that the test
suite pins down kept faithful to the tests.
-/

/-- A custom-resource request, per §3: RequestType together with the
`EnvStack`, `Workload` and `Parameters` resource properties. -/
structure CrRequest where
  requestType : GoStr
  envStack : GoStr
  workload : GoStr
  parameterNames : List GoStr
  deriving DecidableEq

/-- The environment stack as seen by `describeStacks`: its current parameter
list and its outputs. -/
structure EnvStack where
  parameters : List (GoStr × GoStr)
  outputs : List (GoStr × GoStr)
  deriving DecidableEq

/-- Outcome of one `updateStack` call: success, the "another update is already
in progress" rejection, or any other error (carrying its message). -/
inductive UpdateOutcome where
  | ok
  | inProgressErr
  | failed (msg : GoStr)
  deriving DecidableEq

/-- The control plane as seen by one reconciler invocation: the result of the
i-th fresh `describeStacks` read (`none` models an empty `Stacks` list), and
the outcome of the i-th `updateStack` attempt. -/
structure EnvCtrlWorld where
  describeStacks : Nat → Option EnvStack
  updateOutcome : Nat → UpdateOutcome

/-- Status field of the custom-resource response. -/
inductive CrStatus where
  | success
  | failure
  deriving DecidableEq

/-- The custom-resource response body PUT to the ResponseURL: Status, Reason
(empty on SUCCESS), and Data (key→value outputs). -/
structure CrResponse where
  status : CrStatus
  reason : GoStr
  data : List (GoStr × GoStr)
  deriving DecidableEq

/-- One call made by the reconciler against the control plane. -/
inductive CfnCall where
  | describeStacks (stackName : GoStr)
  | updateStack (stackName : GoStr) (parameters : List (GoStr × GoStr))
  | waitForUpdate (stackName : GoStr)
  deriving DecidableEq

/-- FAILED response with a reason. -/
def failResp (reason : GoStr) : CrResponse := ⟨.failure, reason, []⟩

/-- SUCCESS response carrying the stack's outputs as Data. -/
def successResp (outputs : List (GoStr × GoStr)) : CrResponse := ⟨.success, [], outputs⟩

/-- Whether the invocation adds or removes the workload from each membership
set: the spec's tests pin Create and Update to add, Delete to remove. -/
inductive SetOp where
  | add
  | remove
  deriving DecidableEq

/-- Modelled from the spec: "parse its current value as a comma-joined set,
and add WorkloadName to the set (dedup)" / "remove WorkloadName from each
set instead of adding" (§4.2).  The set keeps the original member order; an
add appends at the end when absent (matching the tests:
"my-app,my-other-app" plus "mockWorkload" becomes
"my-app,my-other-app,mockWorkload", and a Delete of "my-app" from
"my-app,my-other-app" leaves "my-other-app"). -/
def setValue (op : SetOp) (wkld v : GoStr) : GoStr :=
  let members := v.splitOn ','
  match op with
  | .add => if wkld ∈ members then v else goJoin [','] (members ++ [wkld])
  | .remove => goJoin [','] (members.filter (· ≠ wkld))

/-- Modelled from the spec: recompute the parameter list — each parameter
named in `names` has its comma-joined set recomputed via `setValue`; every
other parameter keeps its previous value (§4.2). -/
def recomputeParams (op : SetOp) (wkld : GoStr) (names : List GoStr)
    (params : List (GoStr × GoStr)) : List (GoStr × GoStr) :=
  params.map fun kv => if kv.1 ∈ names then (kv.1, setValue op wkld kv.2) else kv

/-- Modelled from the spec: the reconciler's read–recompute–compare–update
loop (§4.2).  Each iteration takes a fresh `describeStacks` read (§4.2's
invariant: the mutation is recomputed from a fresh read before every update
attempt, never from a cache).  If the stack cannot be found it responds
FAILED "Cannot find environment stack <name>"; if nothing changed it responds
SUCCESS immediately with the stack's outputs as Data and makes no update
call; otherwise it calls `updateStack`.  An "update in progress" rejection
waits for the in-progress operation and retries the whole loop; any other
update error is terminal FAILED; on success it waits for completion and
responds SUCCESS.  `fuel` models the invocation deadline (§5): when it
expires the handler must still emit some response, modelled as FAILED. -/
def controlEnv (w : EnvCtrlWorld) (op : SetOp) (envName wkld : GoStr)
    (names : List GoStr) : Nat → Nat → CrResponse × List CfnCall
  | 0, _ => (failResp (gs "deadline expired"), [])
  | fuel + 1, i =>
    match w.describeStacks i with
    | none => (failResp (gs "Cannot find environment stack " ++ envName), [.describeStacks envName])
    | some stack =>
      let newParams := recomputeParams op wkld names stack.parameters
      if newParams = stack.parameters then
        (successResp stack.outputs, [.describeStacks envName])
      else
        match w.updateOutcome i with
        | .failed msg =>
          (failResp msg, [.describeStacks envName, .updateStack envName newParams])
        | .inProgressErr =>
          let rest := controlEnv w op envName wkld names fuel (i + 1)
          (rest.1, .describeStacks envName :: .updateStack envName newParams ::
            .waitForUpdate envName :: rest.2)
        | .ok =>
          (successResp stack.outputs,
            [.describeStacks envName, .updateStack envName newParams, .waitForUpdate envName])

/-- Modelled from the spec: the handler dispatch (§4.2).  Create and Update
run the loop with an add — the repository's own test
("unexpected update stack error", env-controller-test.js:107-159) pins a
Create invocation to add the workload, exactly like Update — Delete runs it
with a remove, and any other RequestType responds FAILED
"Unsupported request type <value>" with no control-plane call. -/
def envControllerHandler (w : EnvCtrlWorld) (fuel : Nat) (req : CrRequest) :
    CrResponse × List CfnCall :=
  if req.requestType = gs "Create" ∨ req.requestType = gs "Update" then
    controlEnv w .add req.envStack req.workload req.parameterNames fuel 0
  else if req.requestType = gs "Delete" then
    controlEnv w .remove req.envStack req.workload req.parameterNames fuel 0
  else
    (failResp (gs "Unsupported request type " ++ req.requestType), [])

/-- Count of `updateStack` calls in a reconciler trace. -/
def countUpdates (trace : List CfnCall) : Nat :=
  trace.countP fun c => match c with | .updateStack _ _ => true | _ => false

/-- Count of `waitFor stackUpdateComplete` calls in a reconciler trace. -/
def countWaits (trace : List CfnCall) : Nat :=
  trace.countP fun c => match c with | .waitForUpdate _ => true | _ => false

/-! ## StackDeployer: CloudFormation.DeployService and handleStackError

Embedded from `deploy/cloudformation` (src/unnamed/part_005).
-/

/-- A stack event as returned by `ErrorEvents`: only the status reason is
consumed by the error classification. -/
structure StackEvent where
  statusReason : GoStr
  deriving DecidableEq

/-- One call made by `DeployService` against the gateway. -/
inductive DeployCall where
  | createAndWait
  | updateAndWait
  | errorEvents
  deriving DecidableEq

/-- The collaborators of one `DeployService` run: the outcome of `toStack`
(`conf` conversion), of `CreateAndWait`, of `UpdateAndWait`, and of
`ErrorEvents` (`none` outcome = success, the call returned `nil`). -/
structure DeploySvcWorld where
  toStackErr : Option GoErr
  createRes : Option GoErr
  updateRes : Option GoErr
  errorEventsRes : GoErr ⊕ List StackEvent

namespace CloudFormation

/-- Embeds `CloudFormation.handleStackError` (part_005:39-51): a nil error is
returned unchanged; otherwise fetch the stack's failure events — if that
lookup itself errors, wrap the original as
`fmt.Errorf("%w: describe stack: %v", err, describeErr)`; with no failure
events return the original unchanged; otherwise wrap the original as
`fmt.Errorf("%w: %s", err, errors[0].StatusReason)`.  Also returns whether
the `ErrorEvents` call was made. -/
def handleStackError (ee : GoErr ⊕ List StackEvent) (err : Option GoErr) :
    Option GoErr × Bool :=
  match err with
  | none => (none, false)
  | some e =>
    match ee with
    | .inl describeErr => (some (e.wrap (gs "describe stack: " ++ describeErr.message)), true)
    | .inr [] => (some e, true)
    | .inr (ev :: _) => (some (e.wrap ev.statusReason), true)

/-- Embeds `CloudFormation.DeployService` (part_005:17-37): convert the
configuration to a stack, attempt `CreateAndWait`; on success stop; if the
create failure is (via `errors.As`) an `ErrStackAlreadyExists`, switch to
`UpdateAndWait` and classify its outcome; any other create failure goes
through `handleStackError` without an update attempt. -/
def DeployService (w : DeploySvcWorld) : Option GoErr × List DeployCall :=
  match w.toStackErr with
  | some e => (some e, [])
  | none =>
    match w.createRes with
    | none => (none, [.createAndWait])
    | some cerr =>
      if cerr.isAlreadyExists then
        let r := handleStackError w.errorEventsRes w.updateRes
        (r.1, [.createAndWait, .updateAndWait] ++ if r.2 then [.errorEvents] else [])
      else
        let r := handleStackError w.errorEventsRes (some cerr)
        (r.1, [.createAndWait] ++ if r.2 then [.errorEvents] else [])

end CloudFormation

/-! ## EnvironmentDeleteOrchestrator

Embedded from `internal/pkg/cli/env_delete.go`.
-/

/-- The environment record held in the config store: the two role ARNs the
delete sequence needs. -/
structure EnvConfig where
  executionRoleARN : GoStr
  managerRoleARN : GoStr
  deriving DecidableEq

/-- Result of `EnvironmentTemplate`: the template body, a typed
`ErrStackNotFound`, or any other error. -/
inductive TemplateRes where
  | ok (body : GoStr)
  | stackNotFound
  | failed (e : GoErr)

/-- One collaborator call made by the delete orchestrator. -/
inductive DelCall where
  | getResources
  | getTemplate
  | updateTemplate (body : GoStr)
  | deleteStack
  | deleteRole (arn : GoStr)
  | deleteRecord
  deriving DecidableEq

/-- The five documented steps of `deleteEnvOpts.Execute`. -/
inductive DelStep where
  | validateSvcs
  | retainRoles
  | delStack
  | delRoles
  | delRecord
  deriving DecidableEq

/-- A resource tag mapping returned by the tagging API: its tag list as
key–value pairs. -/
abbrev TagMapping := List (GoStr × GoStr)

/-- The collaborators of one `deleteEnvOpts.Execute` run, plus the `appName`
and `name` fields of the options. -/
structure DeleteEnvWorld where
  appName : GoStr
  name : GoStr
  initClientsErr : Option GoErr
  getResourcesRes : GoErr ⊕ List TagMapping
  envTemplateRes : TemplateRes
  getEnvConfigRes : GoErr ⊕ EnvConfig
  updateTemplateErr : Option GoErr
  deleteEnvironmentErr : Option GoErr
  deleteRoleErr : GoStr → Option GoErr
  deleteStoreErr : Option GoErr

/-- Tag key marking a stack as a Copilot service stack
(`deploy.ServiceTagKey`). -/
def serviceTagKey : GoStr := gs "copilot-service"

namespace deleteEnvOpts

/-- The service names collected in `validateNoRunningServices`
(env_delete.go:212-221): for every returned stack, every tag whose key is the
service tag key contributes its value. -/
def svcNamesOf (stackTags : List TagMapping) : List GoStr :=
  stackTags.flatMap fun ts => (ts.filter fun t => t.1 = serviceTagKey).map (·.2)

/-- Embeds `deleteEnvOpts.validateNoRunningServices` (env_delete.go:191-225):
query the tagging API for cloudformation stacks carrying the service tag and
this (app, env) pair; an API error is wrapped; a non-empty result is an error
listing every collected service name; an empty result passes. -/
def validateNoRunningServices (w : DeleteEnvWorld) : Option GoErr × List DelCall :=
  match w.getResourcesRes with
  | .inl e => (some (e.wrapIn (gs "find service cloudformation stacks: ")), [.getResources])
  | .inr stackTags =>
    if stackTags = [] then (none, [.getResources])
    else
      (some (.basic (gs "service '" ++ goJoin (gs ", ") (svcNamesOf stackTags) ++
          gs "' still exist within the environment " ++ w.name)), [.getResources])

/-- Header line of the CloudformationExecutionRole resource in the template. -/
def execRoleHeader : GoStr := gs "  CloudformationExecutionRole:\n"

/-- Header line of the EnvironmentManagerRole resource in the template. -/
def managerRoleHeader : GoStr := gs "  EnvironmentManagerRole:\n"

/-- The retain block checked for the CloudformationExecutionRole. -/
def execRoleRetainMarker : GoStr :=
  gs "\n  CloudformationExecutionRole:\n    DeletionPolicy: Retain"

/-- The retain block checked for the EnvironmentManagerRole. -/
def managerRoleRetainMarker : GoStr :=
  gs "\n  EnvironmentManagerRole:\n    DeletionPolicy: Retain"

/-- The deletion-policy line inserted after a role header. -/
def retainLine : GoStr := gs "    DeletionPolicy: Retain\n"

/-- The body rewrite of `ensureRolesAreRetained` for one role
(env_delete.go:259-266): split on the role's header and re-join with the
deletion-policy line inserted.  The Go code indexes `parts[0]` and `parts[1]`
and would panic if the header were absent; that case is modelled with empty
defaults and is not reached in any settled claim. -/
def insertRetain (header : GoStr) (body : GoStr) : GoStr :=
  let parts := goSplit header body
  (parts.getD 0 []) ++ header ++ retainLine ++ (parts.getD 1 [])

/-- Embeds `deleteEnvOpts.ensureRolesAreRetained` (env_delete.go:236-276):
fetch the environment stack's template body — a typed stack-not-found error
is success, any other fetch error is rendered with `%v` — then check for the
two retain blocks by substring match; if both are present do nothing; else
insert the deletion policy for exactly the missing role(s), fetch the env
config, and push the new body with `UpdateEnvironmentTemplate`. -/
def ensureRolesAreRetained (w : DeleteEnvWorld) : Option GoErr × List DelCall :=
  match w.envTemplateRes with
  | .stackNotFound => (none, [.getTemplate])
  | .failed e =>
    (some (.basic (gs "get template body for environment " ++ w.name ++
        gs " in application " ++ w.appName ++ gs ": " ++ e.message)), [.getTemplate])
  | .ok body =>
    let retainsExecRole := goContains body execRoleRetainMarker
    let retainsManagerRole := goContains body managerRoleRetainMarker
    if retainsExecRole ∧ retainsManagerRole then (none, [.getTemplate])
    else
      let newBody := body
      let newBody := if retainsExecRole then newBody else insertRetain execRoleHeader newBody
      let newBody := if retainsManagerRole then newBody else insertRetain managerRoleHeader newBody
      match w.getEnvConfigRes with
      | .inl e =>
        (some (.basic (gs "get environment " ++ w.name ++
            gs " configuration from app " ++ w.appName ++ gs ": " ++ e.message)),
          [.getTemplate])
      | .inr _ =>
        match w.updateTemplateErr with
        | some e =>
          (some (e.wrapIn (gs "update environment stack to retain environment roles: ")),
            [.getTemplate, .updateTemplate newBody])
        | none => (none, [.getTemplate, .updateTemplate newBody])

/-- The error `getEnvConfig` produces when the store lookup fails
(env_delete.go:311-322): `fmt.Errorf("get environment %s configuration from
app %s: %v", ...)`. -/
def getEnvConfigErr (w : DeleteEnvWorld) (e : GoErr) : GoErr :=
  .basic (gs "get environment " ++ w.name ++ gs " configuration from app " ++
    w.appName ++ gs ": " ++ e.message)

/-- Embeds `deleteEnvOpts.deleteStack` (env_delete.go:279-288): fetch the env
config, then `DeleteEnvironment`; a delete failure is wrapped as
`fmt.Errorf("delete environment %s stack: %w", ...)`. -/
def deleteStack (w : DeleteEnvWorld) : Option GoErr × List DelCall :=
  match w.getEnvConfigRes with
  | .inl e => (some (getEnvConfigErr w e), [])
  | .inr _ =>
    match w.deleteEnvironmentErr with
    | some e =>
      (some (e.wrapIn (gs "delete environment " ++ w.name ++ gs " stack: ")), [.deleteStack])
    | none => (none, [.deleteStack])

/-- Embeds `deleteEnvOpts.deleteRoles` (env_delete.go:290-302): fetch the env
config, delete the execution role, then the manager role; each failure is
wrapped as `fmt.Errorf("delete role %s: %w", ...)` and aborts. -/
def deleteRoles (w : DeleteEnvWorld) : Option GoErr × List DelCall :=
  match w.getEnvConfigRes with
  | .inl e => (some (getEnvConfigErr w e), [])
  | .inr env =>
    match w.deleteRoleErr env.executionRoleARN with
    | some e =>
      (some (e.wrapIn (gs "delete role " ++ env.executionRoleARN ++ gs ": ")),
        [.deleteRole env.executionRoleARN])
    | none =>
      match w.deleteRoleErr env.managerRoleARN with
      | some e =>
        (some (e.wrapIn (gs "delete role " ++ env.managerRoleARN ++ gs ": ")),
          [.deleteRole env.executionRoleARN, .deleteRole env.managerRoleARN])
      | none => (none, [.deleteRole env.executionRoleARN, .deleteRole env.managerRoleARN])

/-- Embeds `deleteEnvOpts.deleteFromStore` (env_delete.go:304-309): remove the
persisted record; a failure is reported as a fresh error message (the Go code
formats without `%w`). -/
def deleteFromStore (w : DeleteEnvWorld) : Option GoErr × List DelCall :=
  match w.deleteStoreErr with
  | some _ =>
    (some (.basic (gs "delete environment " ++ w.name ++
        gs " configuration from application " ++ w.appName)), [.deleteRecord])
  | none => (none, [.deleteRecord])

/-- Embeds `deleteEnvOpts.Execute` (env_delete.go:137-165): initialize the
runtime clients, then run the five steps in order — dependent-workload check,
retain-policy self-heal, stack deletion, role deletion, record removal — and
return at the first failing step.  Returns the error, the steps that ran, and
the collaborator calls made. -/
def Execute (w : DeleteEnvWorld) : Option GoErr × List DelStep × List DelCall :=
  match w.initClientsErr with
  | some e => (some e, [], [])
  | none =>
    let v := validateNoRunningServices w
    match v.1 with
    | some e => (some e, [.validateSvcs], v.2)
    | none =>
      let r := ensureRolesAreRetained w
      match r.1 with
      | some e => (some e, [.validateSvcs, .retainRoles], v.2 ++ r.2)
      | none =>
        let d := deleteStack w
        match d.1 with
        | some e => (some e, [.validateSvcs, .retainRoles, .delStack], v.2 ++ r.2 ++ d.2)
        | none =>
          let ro := deleteRoles w
          match ro.1 with
          | some e =>
            (some e, [.validateSvcs, .retainRoles, .delStack, .delRoles],
              v.2 ++ r.2 ++ d.2 ++ ro.2)
          | none =>
            let st := deleteFromStore w
            (st.1, [.validateSvcs, .retainRoles, .delStack, .delRoles, .delRecord],
              v.2 ++ r.2 ++ d.2 ++ ro.2 ++ st.2)

/-- The outcome each of the five steps would have in world `w`, as a function
of the step alone.  Used to state the claimed order/early-return contract. -/
def stepOutcome (w : DeleteEnvWorld) : DelStep → Option GoErr
  | .validateSvcs => (validateNoRunningServices w).1
  | .retainRoles => (ensureRolesAreRetained w).1
  | .delStack => (deleteStack w).1
  | .delRoles => (deleteRoles w).1
  | .delRecord => (deleteFromStore w).1

/-- Specification of the claim's temporal contract, written from the spec's
words rather than from the Go code: the steps run in the given order, and a
failing step is the last one to run. -/
def claimedSeq (outcome : DelStep → Option GoErr) : List DelStep → List DelStep
  | [] => []
  | s :: rest =>
    match outcome s with
    | some _ => [s]
    | none => s :: claimedSeq outcome rest

/-- The documented order of the five delete steps. -/
def delOrder : List DelStep := [.validateSvcs, .retainRoles, .delStack, .delRoles, .delRecord]

end deleteEnvOpts

/-! ## EnvironmentInitOrchestrator

Embedded from `internal/pkg/cli/env_delete.go` (the `initEnvOpts` part).
-/

/-- The application record: its account and whether it requires cross-account
DNS delegation (`app.RequiresDNSDelegation()`). -/
structure AppConfig where
  accountID : GoStr
  requiresDNSDelegation : Bool

/-- Outcome of `envDeployer.DeployEnvironment`: success, the typed
`ErrStackAlreadyExists`, or any other error. -/
inductive DeployEnvOutcome where
  | ok
  | alreadyExists
  | failed (e : GoErr)

/-- One collaborator call made by the init orchestrator. -/
inductive InitCall where
  | getApplication
  | envIdentityGet
  | delegateDNS
  | identityGet
  | deployEnvironment
  | streamCreation
  | getEnvironment
  | addEnvToApp
  | createEnvironment
  deriving DecidableEq

/-- The collaborators of one `initEnvOpts.Execute` run, plus the `name` and
`appName` option fields used in error messages. -/
structure InitEnvWorld where
  name : GoStr
  appName : GoStr
  getApplicationRes : GoErr ⊕ AppConfig
  envIdentityRes : GoErr ⊕ GoStr
  delegateDNSErr : Option GoErr
  identityRes : GoErr ⊕ GoStr
  deployEnvironmentRes : DeployEnvOutcome
  streamErr : Option GoErr
  getEnvironmentRes : GoErr ⊕ Unit
  addEnvToAppErr : Option GoErr
  createEnvironmentErr : Option GoErr

namespace initEnvOpts

/-- Embeds `initEnvOpts.delegateDNSFromApp` (env_delete.go:877-895): get the
environment account identity; same-account delegation is a no-op; otherwise
call `DelegateDNSPermissions`. -/
def delegateDNSFromApp (w : InitEnvWorld) (app : AppConfig) : Option GoErr × List InitCall :=
  match w.envIdentityRes with
  | .inl e =>
    (some (e.wrapIn (gs "getting environment account ID for DNS Delegation: ")),
      [.envIdentityGet])
  | .inr envAccount =>
    if envAccount = app.accountID then (none, [.envIdentityGet])
    else
      match w.delegateDNSErr with
      | some e => (some e, [.envIdentityGet, .delegateDNS])
      | none => (none, [.envIdentityGet, .delegateDNS])

/-- Embeds `initEnvOpts.deployEnv` (env_delete.go:820-864): get the caller
identity, then `DeployEnvironment`; a typed stack-already-exists failure is
treated as success and skips event streaming; a deploy success streams the
stack-creation events and fails if the final streamed response carries an
error. -/
def deployEnv (w : InitEnvWorld) : Option GoErr × List InitCall :=
  match w.identityRes with
  | .inl e => (some (e.wrapIn (gs "get identity: ")), [.identityGet])
  | .inr _ =>
    match w.deployEnvironmentRes with
    | .alreadyExists => (none, [.identityGet, .deployEnvironment])
    | .failed e => (some e, [.identityGet, .deployEnvironment])
    | .ok =>
      match w.streamErr with
      | some e => (some e, [.identityGet, .deployEnvironment, .streamCreation])
      | none => (none, [.identityGet, .deployEnvironment, .streamCreation])

/-- Embeds `initEnvOpts.addToStackset` (env_delete.go:866-875): register the
environment into the application's aggregate stackset; a failure is wrapped
as `fmt.Errorf("deploy env %s to application %s: %w", ...)`. -/
def addToStackset (w : InitEnvWorld) : Option GoErr × List InitCall :=
  match w.addEnvToAppErr with
  | some e =>
    (some (e.wrapIn (gs "deploy env " ++ w.name ++ gs " to application " ++
        w.appName ++ gs ": ")), [.addEnvToApp])
  | none => (none, [.addEnvToApp])

/-- Embeds `initEnvOpts.Execute` (env_delete.go:565-610): load the
application (fail fast), optionally delegate DNS permissions, deploy the
environment stack, fetch the environment description, register it into the
application stackset, and only then persist the environment record in the
store; each failure returns immediately. -/
def Execute (w : InitEnvWorld) : Option GoErr × List InitCall :=
  match w.getApplicationRes with
  | .inl e => (some e, [.getApplication])
  | .inr app =>
    let afterDNS : Option GoErr × List InitCall :=
      if app.requiresDNSDelegation then
        let d := delegateDNSFromApp w app
        (d.1.map (·.wrapIn (gs "granting DNS permissions: ")), d.2)
      else (none, [])
    match afterDNS.1 with
    | some e => (some e, .getApplication :: afterDNS.2)
    | none =>
      let de := deployEnv w
      match de.1 with
      | some e => (some e, .getApplication :: afterDNS.2 ++ de.2)
      | none =>
        match w.getEnvironmentRes with
        | .inl e =>
          (some (e.wrapIn (gs "get environment struct for " ++ w.name ++ gs ": ")),
            .getApplication :: afterDNS.2 ++ de.2 ++ [.getEnvironment])
        | .inr _ =>
          let ad := addToStackset w
          match ad.1 with
          | some e =>
            (some e, .getApplication :: afterDNS.2 ++ de.2 ++ [.getEnvironment] ++ ad.2)
          | none =>
            match w.createEnvironmentErr with
            | some e =>
              (some (e.wrapIn (gs "store environment: ")),
                .getApplication :: afterDNS.2 ++ de.2 ++ [.getEnvironment] ++ ad.2 ++
                  [.createEnvironment])
            | none =>
              (none, .getApplication :: afterDNS.2 ++ de.2 ++ [.getEnvironment] ++ ad.2 ++
                [.createEnvironment])

/-- Specification predicate, written from the claim's words: the DNS
delegation step succeeds (or is skipped). -/
def dnsStepOk (w : InitEnvWorld) (app : AppConfig) : Bool :=
  if app.requiresDNSDelegation then
    match w.envIdentityRes with
    | .inl _ => false
    | .inr acct => acct = app.accountID || w.delegateDNSErr = none
  else true

/-- Specification predicate, written from the claim's words: the environment
stack deployment succeeds, where a typed stack-already-exists failure counts
as success. -/
def deployStepOk (w : InitEnvWorld) : Bool :=
  match w.identityRes with
  | .inl _ => false
  | .inr _ =>
    match w.deployEnvironmentRes with
    | .alreadyExists => true
    | .failed _ => false
    | .ok => w.streamErr = none

/-- Specification predicate, written from the claim's words: every step
before persistence — application load, DNS delegation, stack deployment
(already-exists counting as success), environment description fetch, and
stackset registration — succeeds. -/
def prereqsOk (w : InitEnvWorld) : Bool :=
  match w.getApplicationRes with
  | .inl _ => false
  | .inr app =>
    dnsStepOk w app && deployStepOk w &&
      (match w.getEnvironmentRes with | .inl _ => false | .inr _ => true) &&
      w.addEnvToAppErr = none

end initEnvOpts

/-! ## Helper lemmas about the embedded string operations -/

theorem goJoin_eq_intercalate (sep : GoStr) : ∀ l, goJoin sep l = List.intercalate sep l := by
  intro l
  induction l with
  | nil => simp [goJoin, List.intercalate]
  | cons x t ih =>
    cases t with
    | nil => simp [goJoin, List.intercalate, List.intersperse]
    | cons y t' =>
      simp only [goJoin, ih]
      simp [List.intercalate, List.intersperse]

theorem mem_infix_goJoin (sep : GoStr) (n : GoStr) : ∀ l, n ∈ l → n <:+: goJoin sep l := by
  intro l
  induction l with
  | nil => intro h; cases h
  | cons x t ih =>
    intro h
    cases t with
    | nil =>
      simp at h
      subst h
      exact List.infix_refl _
    | cons y t' =>
      rcases List.mem_cons.mp h with h1 | h2
      · subst h1
        exact ⟨[], sep ++ goJoin sep (y :: t'), by simp [goJoin]⟩
      · obtain ⟨s, t'', ht⟩ := ih h2
        exact ⟨(x ++ sep) ++ s, t'', by simp [goJoin, ← ht]⟩

theorem splitOn_goJoin (x : Char) (l : List GoStr) (hx : ∀ m ∈ l, x ∉ m) (hl : l ≠ []) :
    (goJoin [x] l).splitOn x = l := by
  rw [goJoin_eq_intercalate]
  exact List.splitOn_intercalate l x hx hl

theorem not_mem_of_mem_splitOn {x : Char} {l p : List Char} (hp : p ∈ l.splitOn x) : x ∉ p := by
  induction l generalizing p with
  | nil =>
    simp [List.splitOn, List.splitOnP, List.splitOnP.go] at hp
    subst hp; simp
  | cons a t ih =>
    rw [List.splitOn, List.splitOnP_cons] at hp
    by_cases hax : (a == x) = true
    · rw [if_pos hax] at hp
      rcases List.mem_cons.mp hp with h1 | h2
      · subst h1; simp
      · exact ih h2
    · rw [if_neg hax] at hp
      have hne := List.splitOnP_ne_nil (fun y => y == x) t
      rcases hsp : List.splitOnP (fun y => y == x) t with _ | ⟨h, t'⟩
      · exact absurd hsp hne
      · rw [hsp] at hp
        simp only [List.modifyHead] at hp
        have hmem_h : h ∈ t.splitOn x := by
          rw [List.splitOn, hsp]; exact List.mem_cons_self h t'
        rcases List.mem_cons.mp hp with h1 | h2
        · subst h1
          intro hmem
          rcases List.mem_cons.mp hmem with h3 | h4
          · exact hax (by rw [h3]; exact beq_self_eq_true a)
          · exact (ih hmem_h) h4
        · refine ih ?_
          rw [List.splitOn, hsp]
          exact List.mem_cons.mpr (Or.inr h2)

theorem goContains_of_decomp (s sub x y : GoStr) (h : s = x ++ sub ++ y) :
    goContains s sub = true := by
  subst h
  simp only [goContains, decide_eq_true_eq]
  exact List.infix_append x sub y

/-- A small infix-extension helper: an infix of `m` is an infix of
`x ++ m ++ y`. -/
theorem infix_extend {n m x y : GoStr} (h : n <:+: m) : n <:+: x ++ m ++ y := by
  obtain ⟨s, t, rfl⟩ := h
  exact ⟨x ++ s, t ++ y, by simp⟩

theorem unwrapsTo_self (x : GoErr) : x.unwrapsTo x = true := by
  cases x <;> simp [GoErr.unwrapsTo]

theorem unwrapsTo_wrap (x : GoErr) (s : GoStr) : (x.wrap s).unwrapsTo x = true := by
  rw [GoErr.unwrapsTo]
  simp [unwrapsTo_self x]

/-! ## Claim theorems -/

/-- Claim C9: for every non-nil deployment error entering the error
classification the returned error still wraps the original in all branches —
an event-lookup failure is appended (never replacing the original), no
failure events returns the original unchanged, a failure event appends its
status reason — and a nil input error yields nil with no enrichment. -/
theorem handleStackError_wraps_original (ee : GoErr ⊕ List StackEvent) (e : GoErr) :
    (CloudFormation.handleStackError ee none = (none, false)) ∧
    (∀ r, (CloudFormation.handleStackError ee (some e)).1 = some r → r.unwrapsTo e = true) ∧
    (ee = .inr [] → (CloudFormation.handleStackError ee (some e)).1 = some e) ∧
    (∀ d, ee = .inl d →
      (CloudFormation.handleStackError ee (some e)).1 =
        some (e.wrap (gs "describe stack: " ++ d.message))) ∧
    (∀ ev evs, ee = .inr (ev :: evs) →
      (CloudFormation.handleStackError ee (some e)).1 = some (e.wrap ev.statusReason)) := by
  rcases ee with d | evs
  · refine ⟨rfl, ?_, ?_, ?_, ?_⟩
    · intro r hr
      simp only [CloudFormation.handleStackError, Option.some.injEq] at hr
      rw [← hr]
      exact unwrapsTo_wrap e _
    · intro h
      simp at h
    · intro d' hd'
      injection hd' with h
      subst h
      rfl
    · intro ev evs h
      simp at h
  · cases evs with
    | nil =>
      refine ⟨rfl, ?_, ?_, ?_, ?_⟩
      · intro r hr
        simp only [CloudFormation.handleStackError, Option.some.injEq] at hr
        rw [← hr]
        exact unwrapsTo_self e
      · intro _
        rfl
      · intro d h
        simp at h
      · intro ev evs h
        injection h with h
        cases h
    | cons ev evs' =>
      refine ⟨rfl, ?_, ?_, ?_, ?_⟩
      · intro r hr
        simp only [CloudFormation.handleStackError, Option.some.injEq] at hr
        rw [← hr]
        exact unwrapsTo_wrap e _
      · intro h
        injection h with h
        cases h
      · intro d h
        simp at h
      · intro ev' evs'' h
        injection h with h
        injection h with h1 h2
        subst h1
        rfl

/-- Witness for C9 at a concrete failure-event input: the classified error
wraps the original error. -/
theorem handleStackError_wraps_original_witness :
    ((GoErr.basic (gs "deploy failed")).wrap (gs "role missing")).unwrapsTo
      (GoErr.basic (gs "deploy failed")) = true :=
  (handleStackError_wraps_original (.inr [⟨gs "role missing"⟩]) (.basic (gs "deploy failed"))).2.1
    ((GoErr.basic (gs "deploy failed")).wrap (gs "role missing")) rfl

/-- Claim C8: DeployService first attempts create-and-wait; a successful
create returns nil immediately with no further calls; the update attempt
happens if and only if the create failure is the typed stack-already-exists
error; and any other create failure goes through error classification with
no update attempt. -/
theorem deployService_create_then_update (w : DeploySvcWorld) (h : w.toStackErr = none) :
    (w.createRes = none → CloudFormation.DeployService w = (none, [.createAndWait])) ∧
    ((DeployCall.updateAndWait ∈ (CloudFormation.DeployService w).2) ↔
      ∃ c, w.createRes = some c ∧ c.isAlreadyExists = true) ∧
    (∀ c, w.createRes = some c → c.isAlreadyExists = false →
      CloudFormation.DeployService w =
        ((CloudFormation.handleStackError w.errorEventsRes (some c)).1,
          .createAndWait ::
            if (CloudFormation.handleStackError w.errorEventsRes (some c)).2 then
              [.errorEvents] else [])) := by
  refine ⟨?_, ?_, ?_⟩
  · intro hc
    simp [CloudFormation.DeployService, h, hc]
  · constructor
    · intro hmem
      rcases hc : w.createRes with _ | c
      · simp [CloudFormation.DeployService, h, hc] at hmem
      · rcases hex : c.isAlreadyExists with _ | _
        · exfalso
          simp only [CloudFormation.DeployService, h, hc, hex, Bool.false_eq_true,
            if_false] at hmem
          rcases hcall : (CloudFormation.handleStackError w.errorEventsRes (some c)).2 with _ | _ <;>
            simp [hcall] at hmem
        · exact ⟨c, rfl, hex⟩
    · rintro ⟨c, hc, hex⟩
      simp only [CloudFormation.DeployService, h, hc, hex, if_true]
      exact List.mem_append.mpr (Or.inl (by simp))
  · intro c hc hex
    simp [CloudFormation.DeployService, h, hc, hex]

/-- Witness for C8 at a concrete world whose create fails with the typed
already-exists error: the update call is attempted. -/
theorem deployService_create_then_update_witness :
    DeployCall.updateAndWait ∈
      (CloudFormation.DeployService
        ⟨none, some (.alreadyExists (gs "stack already exists")), none, .inr []⟩).2 :=
  (deployService_create_then_update
      ⟨none, some (.alreadyExists (gs "stack already exists")), none, .inr []⟩ rfl).2.1.mpr
    ⟨.alreadyExists (gs "stack already exists"), rfl, rfl⟩

/-- Claim C1: a Create or Update invocation whose recomputed parameter values
equal the stack's current values makes no update call at all and responds
SUCCESS with the stack's existing outputs as the response Data. -/
theorem envCtrl_noop_short_circuit (w : EnvCtrlWorld) (fuel : Nat) (req : CrRequest)
    (stack : EnvStack)
    (hty : req.requestType = gs "Create" ∨ req.requestType = gs "Update")
    (hdesc : w.describeStacks 0 = some stack)
    (hsame : recomputeParams .add req.workload req.parameterNames stack.parameters =
      stack.parameters)
    (hfuel : 0 < fuel) :
    envControllerHandler w fuel req = (successResp stack.outputs, [.describeStacks req.envStack]) := by
  obtain ⟨n, rfl⟩ : ∃ n, fuel = n + 1 := ⟨fuel - 1, by omega⟩
  rw [envControllerHandler, if_pos hty, controlEnv, hdesc]
  simp [hsame]

/-- Fixture: the test suite's environment stack, with parameter
ALBWorkloads="my-app,my-other-app" and the CFNExecutionRoleARN output. -/
def stackFix : EnvStack :=
  ⟨[(gs "ALBWorkloads", gs "my-app,my-other-app")],
    [(gs "CFNExecutionRoleARN", gs "arn:aws:iam::1234567890:role/my-project-prod-CFNExecutionRole")]⟩

/-- Fixture: a control plane that always describes `stackFix` and accepts
every update. -/
def wNoop : EnvCtrlWorld := ⟨fun _ => some stackFix, fun _ => .ok⟩

/-- Witness for C1 at the test suite's "Return early if nothing changes"
input: an Update for the already-registered workload "my-app". -/
theorem envCtrl_noop_short_circuit_witness :
    envControllerHandler wNoop 5 ⟨gs "Update", gs "mockEnvStack", gs "my-app", [gs "ALBWorkloads"]⟩ =
      (successResp stackFix.outputs, [.describeStacks (gs "mockEnvStack")]) :=
  envCtrl_noop_short_circuit wNoop 5 ⟨gs "Update", gs "mockEnvStack", gs "my-app", [gs "ALBWorkloads"]⟩
    stackFix (Or.inr rfl) rfl (by decide) (by decide)

/-- Claim C2: when the first update call is rejected because another update is
in progress and the second succeeds, the reconciler waits for the prior
operation, retries, waits again for completion, makes the update call exactly
twice, and the final response is SUCCESS. -/
theorem envCtrl_conflict_retry (w : EnvCtrlWorld) (fuel : Nat) (req : CrRequest)
    (stack : EnvStack)
    (hty : req.requestType = gs "Update")
    (hdesc0 : w.describeStacks 0 = some stack)
    (hdesc1 : w.describeStacks 1 = some stack)
    (hchanged : recomputeParams .add req.workload req.parameterNames stack.parameters ≠
      stack.parameters)
    (hupd0 : w.updateOutcome 0 = .inProgressErr)
    (hupd1 : w.updateOutcome 1 = .ok)
    (hfuel : 2 ≤ fuel) :
    (envControllerHandler w fuel req).1.status = .success ∧
    countUpdates (envControllerHandler w fuel req).2 = 2 ∧
    countWaits (envControllerHandler w fuel req).2 = 2 := by
  obtain ⟨n, rfl⟩ : ∃ n, fuel = n + 2 := ⟨fuel - 2, by omega⟩
  rw [envControllerHandler, if_pos (Or.inr hty)]
  rw [show n + 2 = (n + 1) + 1 from rfl, controlEnv, hdesc0]
  simp only [if_neg hchanged, hupd0]
  rw [controlEnv, hdesc1]
  simp only [if_neg hchanged, hupd1]
  refine ⟨rfl, ?_, ?_⟩ <;> simp [countUpdates, countWaits, successResp]

/-- Fixture: a control plane that always describes `stackFix`, rejects the
first update with the in-progress conflict, and accepts the second. -/
def wRetry : EnvCtrlWorld :=
  ⟨fun _ => some stackFix, fun i => if i = 0 then .inProgressErr else .ok⟩

/-- Witness for C2 at the test suite's "Wait if the stack is updating in
progress" input. -/
theorem envCtrl_conflict_retry_witness :
    (envControllerHandler wRetry 5
        ⟨gs "Update", gs "mockEnvStack", gs "mockWorkload", [gs "ALBWorkloads"]⟩).1.status =
      .success ∧
    countUpdates (envControllerHandler wRetry 5
        ⟨gs "Update", gs "mockEnvStack", gs "mockWorkload", [gs "ALBWorkloads"]⟩).2 = 2 ∧
    countWaits (envControllerHandler wRetry 5
        ⟨gs "Update", gs "mockEnvStack", gs "mockWorkload", [gs "ALBWorkloads"]⟩).2 = 2 :=
  envCtrl_conflict_retry wRetry 5 ⟨gs "Update", gs "mockEnvStack", gs "mockWorkload", [gs "ALBWorkloads"]⟩
    stackFix rfl rfl rfl (by decide) rfl rfl (by decide)

/-- Fixture: the stack of the test "unexpected update stack error"
(parameters only, no outputs). -/
def stackNoOut : EnvStack := ⟨[(gs "ALBWorkloads", gs "my-app,my-other-app")], []⟩

/-- Fixture: a control plane that always describes `stackNoOut` and rejects
every update with the test's "not apple pie" error. -/
def wCreateAdds : EnvCtrlWorld :=
  ⟨fun _ => some stackNoOut, fun _ => .failed (gs "not apple pie")⟩

/-- Counterexample to claim C3, at the exact input of the repository's own
test "unexpected update stack error" (env-controller-test.js:107-159): a
Create invocation for workload "mockWorkload" against parameter value
"my-app,my-other-app" recomputes the set to
"my-app,my-other-app,mockWorkload" — membership changes — and the handler
does make an update call carrying that value, so Create does not leave the
parameter sets unchanged. -/
theorem envCtrl_create_adds_counterexample :
    envControllerHandler wCreateAdds 5
        ⟨gs "Create", gs "mockEnvStack", gs "mockWorkload", [gs "ALBWorkloads"]⟩ =
      (failResp (gs "not apple pie"),
        [.describeStacks (gs "mockEnvStack"),
          .updateStack (gs "mockEnvStack")
            [(gs "ALBWorkloads", gs "my-app,my-other-app,mockWorkload")]]) ∧
    recomputeParams .add (gs "mockWorkload") [gs "ALBWorkloads"] stackNoOut.parameters ≠
      stackNoOut.parameters := by
  constructor
  · decide
  · decide

/-- Claim C3 (amended): a Create invocation behaves exactly like an Update
invocation — both add WorkloadName to every named parameter set — so Create
leaves a set's membership unchanged only when the workload is already a
member. -/
theorem envCtrl_create_eq_update (w : EnvCtrlWorld) (fuel : Nat) (es wk : GoStr)
    (ns : List GoStr) :
    envControllerHandler w fuel ⟨gs "Create", es, wk, ns⟩ =
      envControllerHandler w fuel ⟨gs "Update", es, wk, ns⟩ := by
  rw [envControllerHandler, envControllerHandler, if_pos (Or.inl rfl), if_pos (Or.inr rfl)]

/-- Claim C4: a Delete invocation's recomputed value removes exactly the
requesting workload's name from each comma-joined set and preserves the
other members, and the update call carries the recomputed parameters. -/
theorem envCtrl_delete_removes_exactly (w : EnvCtrlWorld) (fuel : Nat) (req : CrRequest)
    (stack : EnvStack)
    (hty : req.requestType = gs "Delete")
    (hdesc : w.describeStacks 0 = some stack)
    (hchanged : recomputeParams .remove req.workload req.parameterNames stack.parameters ≠
      stack.parameters)
    (hupd : w.updateOutcome 0 = .ok)
    (hfuel : 0 < fuel) :
    (envControllerHandler w fuel req).2 =
      [.describeStacks req.envStack,
        .updateStack req.envStack
          (recomputeParams .remove req.workload req.parameterNames stack.parameters),
        .waitForUpdate req.envStack] ∧
    (envControllerHandler w fuel req).1.status = .success ∧
    (∀ v, (v.splitOn ',').filter (· ≠ req.workload) ≠ [] →
      (setValue .remove req.workload v).splitOn ',' =
        (v.splitOn ',').filter (· ≠ req.workload)) := by
  obtain ⟨n, rfl⟩ : ∃ n, fuel = n + 1 := ⟨fuel - 1, by omega⟩
  have hdis : ¬(req.requestType = gs "Create" ∨ req.requestType = gs "Update") := by
    rw [hty]
    rintro (h | h) <;> simp [gs] at h
  rw [envControllerHandler, if_neg hdis, if_pos hty, controlEnv, hdesc]
  simp only [if_neg hchanged, hupd]
  refine ⟨by trivial, by trivial, ?_⟩
  intro v hne
  rw [setValue]
  refine splitOn_goJoin ',' _ ?_ hne
  intro m hm
  exact not_mem_of_mem_splitOn (List.mem_of_mem_filter hm)

/-- Fixture: a control plane that always describes `stackNoOut` and accepts
every update. -/
def wDeleteOk : EnvCtrlWorld := ⟨fun _ => some stackNoOut, fun _ => .ok⟩

/-- Witness for C4 at the test suite's "Delete successfully" input: deleting
"my-app" from "my-app,my-other-app" leaves exactly "my-other-app", and the
update call carries that value. -/
theorem envCtrl_delete_removes_exactly_witness :
    (envControllerHandler wDeleteOk 5
        ⟨gs "Delete", gs "mockEnvStack", gs "my-app", [gs "ALBWorkloads"]⟩).2 =
      [.describeStacks (gs "mockEnvStack"),
        .updateStack (gs "mockEnvStack") [(gs "ALBWorkloads", gs "my-other-app")],
        .waitForUpdate (gs "mockEnvStack")] ∧
    (setValue .remove (gs "my-app") (gs "my-app,my-other-app")).splitOn ',' =
      ((gs "my-app,my-other-app").splitOn ',').filter (· ≠ gs "my-app") := by
  have h := envCtrl_delete_removes_exactly wDeleteOk 5
    ⟨gs "Delete", gs "mockEnvStack", gs "my-app", [gs "ALBWorkloads"]⟩ stackNoOut
    rfl rfl (by decide) rfl (by decide)
  refine ⟨?_, h.2.2 (gs "my-app,my-other-app") (by decide)⟩
  rw [h.1]
  decide

theorem dns_ok_iff (w : InitEnvWorld) (app : AppConfig)
    (h : app.requiresDNSDelegation = true) :
    (initEnvOpts.delegateDNSFromApp w app).1 = none ↔ initEnvOpts.dnsStepOk w app = true := by
  rw [initEnvOpts.delegateDNSFromApp, initEnvOpts.dnsStepOk, if_pos h]
  rcases w.envIdentityRes with e | acct
  · simp
  · by_cases hacct : acct = app.accountID
    · simp [hacct]
    · rcases hdel : w.delegateDNSErr with _ | e <;> simp [hacct, hdel]

theorem dns_skip_ok (w : InitEnvWorld) (app : AppConfig)
    (h : app.requiresDNSDelegation = false) : initEnvOpts.dnsStepOk w app = true := by
  rw [initEnvOpts.dnsStepOk, if_neg (by simp [h])]

theorem deploy_ok_iff (w : InitEnvWorld) :
    (initEnvOpts.deployEnv w).1 = none ↔ initEnvOpts.deployStepOk w = true := by
  rw [initEnvOpts.deployEnv, initEnvOpts.deployStepOk]
  rcases w.identityRes with e | caller
  · simp
  · rcases w.deployEnvironmentRes with _ | _ | e
    · rcases hs : w.streamErr with _ | e <;> simp [hs]
    · simp
    · simp

theorem create_not_in_dns (w : InitEnvWorld) (app : AppConfig) :
    InitCall.createEnvironment ∉ (initEnvOpts.delegateDNSFromApp w app).2 := by
  rw [initEnvOpts.delegateDNSFromApp]
  rcases w.envIdentityRes with e | acct
  · simp
  · by_cases hacct : acct = app.accountID
    · simp [hacct]
    · rcases hdel : w.delegateDNSErr with _ | e <;> simp [hacct, hdel]

theorem stream_not_in_dns (w : InitEnvWorld) (app : AppConfig) :
    InitCall.streamCreation ∉ (initEnvOpts.delegateDNSFromApp w app).2 := by
  rw [initEnvOpts.delegateDNSFromApp]
  rcases w.envIdentityRes with e | acct
  · simp
  · by_cases hacct : acct = app.accountID
    · simp [hacct]
    · rcases hdel : w.delegateDNSErr with _ | e <;> simp [hacct, hdel]

theorem create_not_in_deploy (w : InitEnvWorld) :
    InitCall.createEnvironment ∉ (initEnvOpts.deployEnv w).2 := by
  rw [initEnvOpts.deployEnv]
  rcases w.identityRes with e | caller
  · simp
  · rcases w.deployEnvironmentRes with _ | _ | e
    · rcases hs : w.streamErr with _ | e <;> simp [hs]
    · simp
    · simp

theorem stream_not_in_deploy_exists (w : InitEnvWorld)
    (h : w.deployEnvironmentRes = .alreadyExists) :
    InitCall.streamCreation ∉ (initEnvOpts.deployEnv w).2 := by
  rw [initEnvOpts.deployEnv]
  rcases w.identityRes with e | caller
  · simp
  · rw [h]
    simp

theorem addToStackset_calls (w : InitEnvWorld) :
    (initEnvOpts.addToStackset w).2 = [.addEnvToApp] := by
  rw [initEnvOpts.addToStackset]
  rcases w.addEnvToAppErr with _ | e <;> simp

theorem addToStackset_ok_iff (w : InitEnvWorld) :
    (initEnvOpts.addToStackset w).1 = none ↔ w.addEnvToAppErr = none := by
  rw [initEnvOpts.addToStackset]
  rcases h : w.addEnvToAppErr with _ | e <;> simp [h]

/-- Claim C7: the environment record is persisted to the store exactly when
the application load, DNS delegation, stack deployment (a typed
stack-already-exists failure counting as success), environment description
fetch, and stackset registration have all succeeded; an already-exists deploy
skips event streaming; a failure at any earlier step returns a non-nil error
without calling the store; when every prerequisite and the store call itself
succeed the run completes with nil; and whenever the store is called it is
the last call of the run. -/
theorem envInit_persists_record_last (w : InitEnvWorld) :
    ((InitCall.createEnvironment ∈ (initEnvOpts.Execute w).2) ↔
      initEnvOpts.prereqsOk w = true) ∧
    (initEnvOpts.prereqsOk w = false →
      (initEnvOpts.Execute w).1 ≠ none ∧
        InitCall.createEnvironment ∉ (initEnvOpts.Execute w).2) ∧
    (w.deployEnvironmentRes = .alreadyExists →
      InitCall.streamCreation ∉ (initEnvOpts.Execute w).2) ∧
    (initEnvOpts.prereqsOk w = true → w.createEnvironmentErr = none →
      (initEnvOpts.Execute w).1 = none) ∧
    ((initEnvOpts.Execute w).2.getLast? = some .createEnvironment ∨
      InitCall.createEnvironment ∉ (initEnvOpts.Execute w).2) := by
  rcases hga : w.getApplicationRes with e | app
  · rw [initEnvOpts.Execute, hga]
    rw [initEnvOpts.prereqsOk, hga]
    simp
  · have hprereq : initEnvOpts.prereqsOk w =
        (initEnvOpts.dnsStepOk w app && initEnvOpts.deployStepOk w &&
          (match w.getEnvironmentRes with | .inl _ => false | .inr _ => true) &&
          w.addEnvToAppErr = none) := by
      rw [initEnvOpts.prereqsOk, hga]
    by_cases hreq : app.requiresDNSDelegation = true
    · rcases hdns : (initEnvOpts.delegateDNSFromApp w app).1 with _ | e
      · have hdnsok : initEnvOpts.dnsStepOk w app = true := (dns_ok_iff w app hreq).mp hdns
        rcases hde : (initEnvOpts.deployEnv w).1 with _ | e
        · have hdeok : initEnvOpts.deployStepOk w = true := (deploy_ok_iff w).mp hde
          rcases hge : w.getEnvironmentRes with e | u
          · -- description fetch fails
            have hE : initEnvOpts.Execute w =
                (some (e.wrapIn (gs "get environment struct for " ++ w.name ++ gs ": ")),
                  .getApplication :: (initEnvOpts.delegateDNSFromApp w app).2 ++
                    (initEnvOpts.deployEnv w).2 ++ [.getEnvironment]) := by
              rw [initEnvOpts.Execute, hga]
              simp only [hreq, eq_self_iff_true, if_true, hdns, Option.map_none', hde, hge]
            have hpre : initEnvOpts.prereqsOk w = false := by
              rw [hprereq, hge]
              simp
            rw [hE, hpre]
            refine ⟨?_, ?_, ?_, ?_, ?_⟩
            · simp [create_not_in_dns w app, create_not_in_deploy w]
            · intro _
              exact ⟨by simp, by simp [create_not_in_dns w app, create_not_in_deploy w]⟩
            · intro hex
              simp [stream_not_in_dns w app, stream_not_in_deploy_exists w hex]
            · intro h
              simp at h
            · right
              simp [create_not_in_dns w app, create_not_in_deploy w]
          · rcases had : w.addEnvToAppErr with _ | e
            · have hadok : (initEnvOpts.addToStackset w).1 = none :=
                (addToStackset_ok_iff w).mpr had
              have hpre : initEnvOpts.prereqsOk w = true := by
                rw [hprereq, hdnsok, hdeok, hge, had]
                simp
              rcases hce : w.createEnvironmentErr with _ | e
              · -- every step succeeds
                have hE : initEnvOpts.Execute w =
                    (none,
                      .getApplication :: (initEnvOpts.delegateDNSFromApp w app).2 ++
                        (initEnvOpts.deployEnv w).2 ++ [.getEnvironment] ++ [.addEnvToApp] ++
                        [.createEnvironment]) := by
                  rw [initEnvOpts.Execute, hga]
                  simp only [hreq, eq_self_iff_true, if_true, hdns, Option.map_none', hde, hge,
                    hadok, addToStackset_calls w, hce]
                rw [hE, hpre]
                refine ⟨?_, ?_, ?_, ?_, ?_⟩
                · simp
                · intro h
                  simp at h
                · intro hex
                  simp [stream_not_in_dns w app, stream_not_in_deploy_exists w hex]
                · intro _ _
                  rfl
                · left
                  exact List.getLast?_concat _
              · -- store call fails
                have hE : initEnvOpts.Execute w =
                    (some (e.wrapIn (gs "store environment: ")),
                      .getApplication :: (initEnvOpts.delegateDNSFromApp w app).2 ++
                        (initEnvOpts.deployEnv w).2 ++ [.getEnvironment] ++ [.addEnvToApp] ++
                        [.createEnvironment]) := by
                  rw [initEnvOpts.Execute, hga]
                  simp only [hreq, eq_self_iff_true, if_true, hdns, Option.map_none', hde, hge,
                    hadok, addToStackset_calls w, hce]
                rw [hE, hpre]
                refine ⟨?_, ?_, ?_, ?_, ?_⟩
                · simp
                · intro h
                  simp at h
                · intro hex
                  simp [stream_not_in_dns w app, stream_not_in_deploy_exists w hex]
                · intro _ h2
                  cases h2
                · left
                  exact List.getLast?_concat _
            · -- stackset registration fails
              have hadbad : (initEnvOpts.addToStackset w).1 =
                  some (e.wrapIn (gs "deploy env " ++ w.name ++ gs " to application " ++
                    w.appName ++ gs ": ")) := by
                rw [initEnvOpts.addToStackset, had]
              have hE : initEnvOpts.Execute w =
                  (some (e.wrapIn (gs "deploy env " ++ w.name ++ gs " to application " ++
                      w.appName ++ gs ": ")),
                    .getApplication :: (initEnvOpts.delegateDNSFromApp w app).2 ++
                      (initEnvOpts.deployEnv w).2 ++ [.getEnvironment] ++ [.addEnvToApp]) := by
                rw [initEnvOpts.Execute, hga]
                simp only [hreq, eq_self_iff_true, if_true, hdns, Option.map_none', hde, hge,
                  hadbad, addToStackset_calls w]
              have hpre : initEnvOpts.prereqsOk w = false := by
                rw [hprereq, hge, had]
                simp
              rw [hE, hpre]
              refine ⟨?_, ?_, ?_, ?_, ?_⟩
              · simp [create_not_in_dns w app, create_not_in_deploy w]
              · intro _
                exact ⟨by simp, by simp [create_not_in_dns w app, create_not_in_deploy w]⟩
              · intro hex
                simp [stream_not_in_dns w app, stream_not_in_deploy_exists w hex]
              · intro h
                simp at h
              · right
                simp [create_not_in_dns w app, create_not_in_deploy w]
        · -- deploy fails
          have hdebad : initEnvOpts.deployStepOk w = false := by
            rcases hds : initEnvOpts.deployStepOk w with _ | _
            · rfl
            · exact absurd ((deploy_ok_iff w).mpr hds) (by simp [hde])
          have hE : initEnvOpts.Execute w =
              (some e,
                .getApplication :: (initEnvOpts.delegateDNSFromApp w app).2 ++
                  (initEnvOpts.deployEnv w).2) := by
            rw [initEnvOpts.Execute, hga]
            simp only [hreq, eq_self_iff_true, if_true, hdns, Option.map_none', hde]
          have hpre : initEnvOpts.prereqsOk w = false := by
            rw [hprereq, hdebad]
            simp
          rw [hE, hpre]
          refine ⟨?_, ?_, ?_, ?_, ?_⟩
          · simp [create_not_in_dns w app, create_not_in_deploy w]
          · intro _
            exact ⟨by simp, by simp [create_not_in_dns w app, create_not_in_deploy w]⟩
          · intro hex
            simp [stream_not_in_dns w app, stream_not_in_deploy_exists w hex]
          · intro h
            simp at h
          · right
            simp [create_not_in_dns w app, create_not_in_deploy w]
      · -- DNS delegation fails
        have hdnsbad : initEnvOpts.dnsStepOk w app = false := by
          rcases hds : initEnvOpts.dnsStepOk w app with _ | _
          · rfl
          · exact absurd ((dns_ok_iff w app hreq).mpr hds) (by simp [hdns])
        have hE : initEnvOpts.Execute w =
            (some (e.wrapIn (gs "granting DNS permissions: ")),
              .getApplication :: (initEnvOpts.delegateDNSFromApp w app).2) := by
          rw [initEnvOpts.Execute, hga]
          simp only [hreq, eq_self_iff_true, if_true, hdns, Option.map_some']
        have hpre : initEnvOpts.prereqsOk w = false := by
          rw [hprereq, hdnsbad]
          simp
        rw [hE, hpre]
        refine ⟨?_, ?_, ?_, ?_, ?_⟩
        · simp [create_not_in_dns w app]
        · intro _
          exact ⟨by simp, by simp [create_not_in_dns w app]⟩
        · intro hex
          simp [stream_not_in_dns w app]
        · intro h
          simp at h
        · right
          simp [create_not_in_dns w app]
    · -- no DNS delegation required
      have hreqf : app.requiresDNSDelegation = false := by
        rcases h : app.requiresDNSDelegation with _ | _
        · rfl
        · exact absurd h hreq
      have hdnsok : initEnvOpts.dnsStepOk w app = true := dns_skip_ok w app hreqf
      rcases hde : (initEnvOpts.deployEnv w).1 with _ | e
      · have hdeok : initEnvOpts.deployStepOk w = true := (deploy_ok_iff w).mp hde
        rcases hge : w.getEnvironmentRes with e | u
        · have hE : initEnvOpts.Execute w =
              (some (e.wrapIn (gs "get environment struct for " ++ w.name ++ gs ": ")),
                .getApplication :: [] ++ (initEnvOpts.deployEnv w).2 ++ [.getEnvironment]) := by
            rw [initEnvOpts.Execute, hga]
            simp only [hreqf, Bool.false_eq_true, if_false, hde, hge]
          have hpre : initEnvOpts.prereqsOk w = false := by
            rw [hprereq, hge]
            simp
          rw [hE, hpre]
          refine ⟨?_, ?_, ?_, ?_, ?_⟩
          · simp [create_not_in_deploy w]
          · intro _
            exact ⟨by simp, by simp [create_not_in_deploy w]⟩
          · intro hex
            simp [stream_not_in_deploy_exists w hex]
          · intro h
            simp at h
          · right
            simp [create_not_in_deploy w]
        · rcases had : w.addEnvToAppErr with _ | e
          · have hadok : (initEnvOpts.addToStackset w).1 = none :=
              (addToStackset_ok_iff w).mpr had
            have hpre : initEnvOpts.prereqsOk w = true := by
              rw [hprereq, hdnsok, hdeok, hge, had]
              simp
            rcases hce : w.createEnvironmentErr with _ | e
            · have hE : initEnvOpts.Execute w =
                  (none,
                    .getApplication :: [] ++ (initEnvOpts.deployEnv w).2 ++ [.getEnvironment] ++
                      [.addEnvToApp] ++ [.createEnvironment]) := by
                rw [initEnvOpts.Execute, hga]
                simp only [hreqf, Bool.false_eq_true, if_false, hde, hge, hadok,
                  addToStackset_calls w, hce]
              rw [hE, hpre]
              refine ⟨?_, ?_, ?_, ?_, ?_⟩
              · simp
              · intro h
                simp at h
              · intro hex
                simp [stream_not_in_deploy_exists w hex]
              · intro _ _
                rfl
              · left
                exact List.getLast?_concat _
            · have hE : initEnvOpts.Execute w =
                  (some (e.wrapIn (gs "store environment: ")),
                    .getApplication :: [] ++ (initEnvOpts.deployEnv w).2 ++ [.getEnvironment] ++
                      [.addEnvToApp] ++ [.createEnvironment]) := by
                rw [initEnvOpts.Execute, hga]
                simp only [hreqf, Bool.false_eq_true, if_false, hde, hge, hadok,
                  addToStackset_calls w, hce]
              rw [hE, hpre]
              refine ⟨?_, ?_, ?_, ?_, ?_⟩
              · simp
              · intro h
                simp at h
              · intro hex
                simp [stream_not_in_deploy_exists w hex]
              · intro _ h2
                cases h2
              · left
                exact List.getLast?_concat _
          · have hadbad : (initEnvOpts.addToStackset w).1 =
                some (e.wrapIn (gs "deploy env " ++ w.name ++ gs " to application " ++
                  w.appName ++ gs ": ")) := by
              rw [initEnvOpts.addToStackset, had]
            have hE : initEnvOpts.Execute w =
                (some (e.wrapIn (gs "deploy env " ++ w.name ++ gs " to application " ++
                    w.appName ++ gs ": ")),
                  .getApplication :: [] ++ (initEnvOpts.deployEnv w).2 ++ [.getEnvironment] ++
                    [.addEnvToApp]) := by
              rw [initEnvOpts.Execute, hga]
              simp only [hreqf, Bool.false_eq_true, if_false, hde, hge, hadbad,
                addToStackset_calls w]
            have hpre : initEnvOpts.prereqsOk w = false := by
              rw [hprereq, hge, had]
              simp
            rw [hE, hpre]
            refine ⟨?_, ?_, ?_, ?_, ?_⟩
            · simp [create_not_in_deploy w]
            · intro _
              exact ⟨by simp, by simp [create_not_in_deploy w]⟩
            · intro hex
              simp [stream_not_in_deploy_exists w hex]
            · intro h
              simp at h
            · right
              simp [create_not_in_deploy w]
      · have hdebad : initEnvOpts.deployStepOk w = false := by
          rcases hds : initEnvOpts.deployStepOk w with _ | _
          · rfl
          · exact absurd ((deploy_ok_iff w).mpr hds) (by simp [hde])
        have hE : initEnvOpts.Execute w =
            (some e, .getApplication :: [] ++ (initEnvOpts.deployEnv w).2) := by
          rw [initEnvOpts.Execute, hga]
          simp only [hreqf, Bool.false_eq_true, if_false, hde]
        have hpre : initEnvOpts.prereqsOk w = false := by
          rw [hprereq, hdebad]
          simp
        rw [hE, hpre]
        refine ⟨?_, ?_, ?_, ?_, ?_⟩
        · simp [create_not_in_deploy w]
        · intro _
          exact ⟨by simp, by simp [create_not_in_deploy w]⟩
        · intro hex
          simp [stream_not_in_deploy_exists w hex]
        · intro h
          simp at h
        · right
          simp [create_not_in_deploy w]

/-- Fixture: an init run against an application without DNS delegation whose
environment stack already exists (a re-run of init), with every other step
succeeding. -/
def wInit : InitEnvWorld :=
  ⟨gs "test", gs "demo", .inr ⟨gs "1234", false⟩, .inr (gs "1234"), none,
    .inr (gs "caller"), .alreadyExists, none, .inr (), none, none⟩

/-- Witness for C7: re-running init on an existing environment completes and
persists the record. -/
theorem envInit_persists_record_last_witness :
    (InitCall.createEnvironment ∈ (initEnvOpts.Execute wInit).2) ∧
    (initEnvOpts.Execute wInit).1 = none :=
  ⟨(envInit_persists_record_last wInit).1.mpr rfl,
    (envInit_persists_record_last wInit).2.2.2.1 rfl rfl⟩

/-- Claim C5: the five delete steps run in exactly the documented order with a
failing step ending the run (stated as: the executed step sequence equals the
claimed stop-at-first-failure sequence over the documented order), and when
one or more workload stacks are tagged with the (app, env) pair the run fails
with an error listing every tagged service name found, with no template
update, stack deletion, role deletion or record removal ever invoked. -/
theorem envDelete_guard_blocks_deletion (w : DeleteEnvWorld) (ts : List TagMapping)
    (hInit : w.initClientsErr = none)
    (hres : w.getResourcesRes = .inr ts)
    (hne : ts ≠ []) :
    (deleteEnvOpts.Execute w).1 =
      some (.basic (gs "service '" ++ goJoin (gs ", ") (deleteEnvOpts.svcNamesOf ts) ++
        gs "' still exist within the environment " ++ w.name)) ∧
    (∀ n ∈ deleteEnvOpts.svcNamesOf ts,
      n <:+: gs "service '" ++ goJoin (gs ", ") (deleteEnvOpts.svcNamesOf ts) ++
        gs "' still exist within the environment " ++ w.name) ∧
    (deleteEnvOpts.Execute w).2.1 = [.validateSvcs] ∧
    (deleteEnvOpts.Execute w).2.2 = [.getResources] ∧
    (∀ w' : DeleteEnvWorld, w'.initClientsErr = none →
      (deleteEnvOpts.Execute w').2.1 =
        deleteEnvOpts.claimedSeq (deleteEnvOpts.stepOutcome w') deleteEnvOpts.delOrder) := by
  have hv : deleteEnvOpts.validateNoRunningServices w =
      (some (.basic (gs "service '" ++ goJoin (gs ", ") (deleteEnvOpts.svcNamesOf ts) ++
        gs "' still exist within the environment " ++ w.name)), [.getResources]) := by
    rw [deleteEnvOpts.validateNoRunningServices, hres]
    simp [hne]
  have hE : deleteEnvOpts.Execute w =
      (some (.basic (gs "service '" ++ goJoin (gs ", ") (deleteEnvOpts.svcNamesOf ts) ++
        gs "' still exist within the environment " ++ w.name)),
        [.validateSvcs], [.getResources]) := by
    rw [deleteEnvOpts.Execute, hInit]
    simp only [hv]
  refine ⟨by rw [hE], ?_, by rw [hE], by rw [hE], ?_⟩
  · intro n hn
    simpa [List.append_assoc] using
      @infix_extend n (goJoin (gs ", ") (deleteEnvOpts.svcNamesOf ts)) (gs "service '")
        (gs "' still exist within the environment " ++ w.name)
        (mem_infix_goJoin (gs ", ") n _ hn)
  · intro w' hic
    rw [deleteEnvOpts.Execute, hic, deleteEnvOpts.delOrder]
    rcases h1 : (deleteEnvOpts.validateNoRunningServices w').1 with _ | e1
    · rcases h2 : (deleteEnvOpts.ensureRolesAreRetained w').1 with _ | e2
      · rcases h3 : (deleteEnvOpts.deleteStack w').1 with _ | e3
        · rcases h4 : (deleteEnvOpts.deleteRoles w').1 with _ | e4
          · rcases h5 : (deleteEnvOpts.deleteFromStore w').1 with _ | e5 <;>
              simp [deleteEnvOpts.claimedSeq, deleteEnvOpts.stepOutcome, h1, h2, h3, h4, h5]
          · simp [deleteEnvOpts.claimedSeq, deleteEnvOpts.stepOutcome, h1, h2, h3, h4]
        · simp [deleteEnvOpts.claimedSeq, deleteEnvOpts.stepOutcome, h1, h2, h3]
      · simp [deleteEnvOpts.claimedSeq, deleteEnvOpts.stepOutcome, h1, h2]
    · simp [deleteEnvOpts.claimedSeq, deleteEnvOpts.stepOutcome, h1]

/-- Fixture: a delete run against an environment that still has one service
stack, tagged with service name "api". -/
def wGuard : DeleteEnvWorld :=
  ⟨gs "demo", gs "test", none,
    .inr [[(serviceTagKey, gs "api"), (gs "copilot-environment", gs "test")]],
    .stackNotFound, .inr ⟨gs "execARN", gs "mgrARN"⟩, none, none, fun _ => none, none⟩

/-- Witness for C5: with service "api" still deployed, delete fails listing
"api", runs only the dependent-workload check, and calls no destructive
collaborator. -/
theorem envDelete_guard_blocks_deletion_witness :
    (deleteEnvOpts.Execute wGuard).1 =
      some (.basic (gs "service 'api' still exist within the environment test")) ∧
    (deleteEnvOpts.Execute wGuard).2.1 = [.validateSvcs] ∧
    (deleteEnvOpts.Execute wGuard).2.2 = [.getResources] := by
  have h := envDelete_guard_blocks_deletion wGuard
    [[(serviceTagKey, gs "api"), (gs "copilot-environment", gs "test")]] rfl rfl (by decide)
  refine ⟨?_, h.2.2.1, h.2.2.2.1⟩
  rw [h.1]
  decide

/-- Claim C10: when the template fetch of the retain-policy step fails with
the typed stack-not-found error, the step succeeds without attempting any
template update, and the delete sequence proceeds through stack deletion,
role deletion, and record removal — so a re-run after a partially completed
delete succeeds end to end. -/
theorem envDelete_retain_skips_missing_stack (w : DeleteEnvWorld) (cfg : EnvConfig)
    (hInit : w.initClientsErr = none)
    (hres : w.getResourcesRes = .inr [])
    (htmpl : w.envTemplateRes = .stackNotFound)
    (hcfg : w.getEnvConfigRes = .inr cfg)
    (hdel : w.deleteEnvironmentErr = none)
    (hre : w.deleteRoleErr cfg.executionRoleARN = none)
    (hrm : w.deleteRoleErr cfg.managerRoleARN = none)
    (hst : w.deleteStoreErr = none) :
    deleteEnvOpts.ensureRolesAreRetained w = (none, [.getTemplate]) ∧
    deleteEnvOpts.Execute w =
      (none, deleteEnvOpts.delOrder,
        [.getResources, .getTemplate, .deleteStack, .deleteRole cfg.executionRoleARN,
          .deleteRole cfg.managerRoleARN, .deleteRecord]) ∧
    (∀ b, DelCall.updateTemplate b ∉ (deleteEnvOpts.Execute w).2.2) := by
  have hv : deleteEnvOpts.validateNoRunningServices w = (none, [.getResources]) := by
    rw [deleteEnvOpts.validateNoRunningServices, hres]
    simp
  have hens : deleteEnvOpts.ensureRolesAreRetained w = (none, [.getTemplate]) := by
    rw [deleteEnvOpts.ensureRolesAreRetained, htmpl]
  have hds : deleteEnvOpts.deleteStack w = (none, [.deleteStack]) := by
    rw [deleteEnvOpts.deleteStack, hcfg]
    simp only [hdel]
  have hdr : deleteEnvOpts.deleteRoles w =
      (none, [.deleteRole cfg.executionRoleARN, .deleteRole cfg.managerRoleARN]) := by
    rw [deleteEnvOpts.deleteRoles, hcfg]
    simp only [hre, hrm]
  have hdf : deleteEnvOpts.deleteFromStore w = (none, [.deleteRecord]) := by
    rw [deleteEnvOpts.deleteFromStore, hst]
  have hE : deleteEnvOpts.Execute w =
      (none, deleteEnvOpts.delOrder,
        [.getResources, .getTemplate, .deleteStack, .deleteRole cfg.executionRoleARN,
          .deleteRole cfg.managerRoleARN, .deleteRecord]) := by
    rw [deleteEnvOpts.Execute, hInit]
    simp only [hv, hens, hds, hdr, hdf, deleteEnvOpts.delOrder]
    rfl
  refine ⟨hens, hE, ?_⟩
  rw [hE]
  intro b
  simp

/-- Fixture: a delete re-run whose environment stack no longer exists but
whose record and roles remain; every collaborator succeeds. -/
def wRerun : DeleteEnvWorld :=
  ⟨gs "demo", gs "test", none, .inr [], .stackNotFound,
    .inr ⟨gs "execARN", gs "mgrARN"⟩, none, none, fun _ => none, none⟩

/-- Witness for C10: the re-run skips the template update and completes every
remaining step. -/
theorem envDelete_retain_skips_missing_stack_witness :
    deleteEnvOpts.ensureRolesAreRetained wRerun = (none, [.getTemplate]) ∧
    deleteEnvOpts.Execute wRerun =
      (none, deleteEnvOpts.delOrder,
        [.getResources, .getTemplate, .deleteStack, .deleteRole (gs "execARN"),
          .deleteRole (gs "mgrARN"), .deleteRecord]) := by
  have h := envDelete_retain_skips_missing_stack wRerun ⟨gs "execARN", gs "mgrARN"⟩
    rfl rfl rfl rfl rfl rfl rfl rfl
  exact ⟨h.1, h.2.1⟩

theorem take_trace (tr rest : List DelCall) :
    ((DelCall.getResources :: (tr ++ rest)).take (1 + tr.length)) =
      DelCall.getResources :: tr := by
  rw [Nat.add_comm 1 tr.length]
  rw [List.take_succ_cons]
  rw [List.take_left]

/-- Claim C6: when both retain blocks are missing, the self-heal step issues
exactly one template update whose new body contains the retain block for both
roles, and the update happens before any stack deletion; when both blocks are
already present, no update call is made; when exactly one block is missing,
the deletion policy is inserted for exactly that missing role (the new body
is the single insertion for that role, and carries both retain blocks). -/
theorem envDelete_retain_policy_self_heal :
    (∀ (w : DeleteEnvWorld) (body a a0 b c c0 d : GoStr) (cfg : EnvConfig),
      w.envTemplateRes = .ok body →
      goContains body deleteEnvOpts.execRoleRetainMarker = false →
      goContains body deleteEnvOpts.managerRoleRetainMarker = false →
      goSplit deleteEnvOpts.execRoleHeader body = [a, b] →
      a = a0 ++ gs "\n" →
      goSplit deleteEnvOpts.managerRoleHeader
        (a ++ deleteEnvOpts.execRoleHeader ++ deleteEnvOpts.retainLine ++ b) = [c, d] →
      c = c0 ++ gs "\n" →
      deleteEnvOpts.execRoleRetainMarker <:+: c →
      w.getEnvConfigRes = .inr cfg →
      (deleteEnvOpts.ensureRolesAreRetained w).2 =
        [.getTemplate, .updateTemplate
          (c ++ deleteEnvOpts.managerRoleHeader ++ deleteEnvOpts.retainLine ++ d)] ∧
      goContains (c ++ deleteEnvOpts.managerRoleHeader ++ deleteEnvOpts.retainLine ++ d)
        deleteEnvOpts.execRoleRetainMarker = true ∧
      goContains (c ++ deleteEnvOpts.managerRoleHeader ++ deleteEnvOpts.retainLine ++ d)
        deleteEnvOpts.managerRoleRetainMarker = true) ∧
    (∀ (w : DeleteEnvWorld) (body : GoStr),
      w.envTemplateRes = .ok body →
      goContains body deleteEnvOpts.execRoleRetainMarker = true →
      goContains body deleteEnvOpts.managerRoleRetainMarker = true →
      deleteEnvOpts.ensureRolesAreRetained w = (none, [.getTemplate])) ∧
    (∀ (w : DeleteEnvWorld) (body c c0 d : GoStr) (cfg : EnvConfig),
      w.envTemplateRes = .ok body →
      goContains body deleteEnvOpts.execRoleRetainMarker = true →
      goContains body deleteEnvOpts.managerRoleRetainMarker = false →
      goSplit deleteEnvOpts.managerRoleHeader body = [c, d] →
      c = c0 ++ gs "\n" →
      deleteEnvOpts.execRoleRetainMarker <:+: c →
      w.getEnvConfigRes = .inr cfg →
      (deleteEnvOpts.ensureRolesAreRetained w).2 =
        [.getTemplate, .updateTemplate
          (c ++ deleteEnvOpts.managerRoleHeader ++ deleteEnvOpts.retainLine ++ d)] ∧
      goContains (c ++ deleteEnvOpts.managerRoleHeader ++ deleteEnvOpts.retainLine ++ d)
        deleteEnvOpts.execRoleRetainMarker = true ∧
      goContains (c ++ deleteEnvOpts.managerRoleHeader ++ deleteEnvOpts.retainLine ++ d)
        deleteEnvOpts.managerRoleRetainMarker = true) ∧
    (∀ (w : DeleteEnvWorld) (body a a0 b : GoStr) (cfg : EnvConfig),
      w.envTemplateRes = .ok body →
      goContains body deleteEnvOpts.execRoleRetainMarker = false →
      goContains body deleteEnvOpts.managerRoleRetainMarker = true →
      goSplit deleteEnvOpts.execRoleHeader body = [a, b] →
      a = a0 ++ gs "\n" →
      deleteEnvOpts.managerRoleRetainMarker <:+: b →
      w.getEnvConfigRes = .inr cfg →
      (deleteEnvOpts.ensureRolesAreRetained w).2 =
        [.getTemplate, .updateTemplate
          (a ++ deleteEnvOpts.execRoleHeader ++ deleteEnvOpts.retainLine ++ b)] ∧
      goContains (a ++ deleteEnvOpts.execRoleHeader ++ deleteEnvOpts.retainLine ++ b)
        deleteEnvOpts.execRoleRetainMarker = true ∧
      goContains (a ++ deleteEnvOpts.execRoleHeader ++ deleteEnvOpts.retainLine ++ b)
        deleteEnvOpts.managerRoleRetainMarker = true) ∧
    (∀ (w : DeleteEnvWorld) (nb : GoStr),
      w.initClientsErr = none →
      w.getResourcesRes = .inr [] →
      (deleteEnvOpts.ensureRolesAreRetained w).2 = [.getTemplate, .updateTemplate nb] →
      (deleteEnvOpts.Execute w).2.2.take 3 =
        [.getResources, .getTemplate, .updateTemplate nb]) := by
  have hmE : deleteEnvOpts.execRoleRetainMarker =
      gs "\n" ++ deleteEnvOpts.execRoleHeader ++ gs "    DeletionPolicy: Retain" := by decide
  have hmM : deleteEnvOpts.managerRoleRetainMarker =
      gs "\n" ++ deleteEnvOpts.managerRoleHeader ++ gs "    DeletionPolicy: Retain" := by decide
  have hrl : deleteEnvOpts.retainLine = gs "    DeletionPolicy: Retain" ++ gs "\n" := by decide
  refine ⟨?_, ?_, ?_, ?_, ?_⟩
  · -- both blocks missing
    intro w body a a0 b c c0 d cfg hT hE hM hsE haNL hsM hcNL hEc hcfg
    have hins1 : deleteEnvOpts.insertRetain deleteEnvOpts.execRoleHeader body =
        a ++ deleteEnvOpts.execRoleHeader ++ deleteEnvOpts.retainLine ++ b := by
      rw [deleteEnvOpts.insertRetain, hsE]
      rfl
    have hins2 : deleteEnvOpts.insertRetain deleteEnvOpts.managerRoleHeader
        (a ++ deleteEnvOpts.execRoleHeader ++ deleteEnvOpts.retainLine ++ b) =
        c ++ deleteEnvOpts.managerRoleHeader ++ deleteEnvOpts.retainLine ++ d := by
      rw [deleteEnvOpts.insertRetain, hsM]
      rfl
    refine ⟨?_, ?_, ?_⟩
    · rw [deleteEnvOpts.ensureRolesAreRetained, hT]
      simp only [hE, hM, Bool.false_eq_true, false_and, if_false, hins1, hins2, hcfg]
      rcases hupd : w.updateTemplateErr with _ | e <;> simp [hupd]
    · obtain ⟨s, t, hst⟩ := hEc
      refine goContains_of_decomp _ _ s
        (t ++ (deleteEnvOpts.managerRoleHeader ++ deleteEnvOpts.retainLine ++ d)) ?_
      rw [← hst]
      simp [List.append_assoc]
    · refine goContains_of_decomp _ _ c0 (gs "\n" ++ d) ?_
      rw [hcNL, hmM, hrl]
      simp [List.append_assoc]
  · -- both blocks already present
    intro w body hT hE hM
    rw [deleteEnvOpts.ensureRolesAreRetained, hT]
    simp [hE, hM]
  · -- only the manager block missing
    intro w body c c0 d cfg hT hE hM hsM hcNL hEc hcfg
    have hins2 : deleteEnvOpts.insertRetain deleteEnvOpts.managerRoleHeader body =
        c ++ deleteEnvOpts.managerRoleHeader ++ deleteEnvOpts.retainLine ++ d := by
      rw [deleteEnvOpts.insertRetain, hsM]
      rfl
    refine ⟨?_, ?_, ?_⟩
    · rw [deleteEnvOpts.ensureRolesAreRetained, hT]
      simp only [hE, hM, Bool.false_eq_true, and_false, if_false, if_true,
        eq_self_iff_true, hins2, hcfg]
      rcases hupd : w.updateTemplateErr with _ | e <;> simp [hupd]
    · obtain ⟨s, t, hst⟩ := hEc
      refine goContains_of_decomp _ _ s
        (t ++ (deleteEnvOpts.managerRoleHeader ++ deleteEnvOpts.retainLine ++ d)) ?_
      rw [← hst]
      simp [List.append_assoc]
    · refine goContains_of_decomp _ _ c0 (gs "\n" ++ d) ?_
      rw [hcNL, hmM, hrl]
      simp [List.append_assoc]
  · -- only the execution block missing
    intro w body a a0 b cfg hT hE hM hsE haNL hMb hcfg
    have hins1 : deleteEnvOpts.insertRetain deleteEnvOpts.execRoleHeader body =
        a ++ deleteEnvOpts.execRoleHeader ++ deleteEnvOpts.retainLine ++ b := by
      rw [deleteEnvOpts.insertRetain, hsE]
      rfl
    refine ⟨?_, ?_, ?_⟩
    · rw [deleteEnvOpts.ensureRolesAreRetained, hT]
      simp only [hE, hM, Bool.false_eq_true, false_and, if_false, if_true,
        eq_self_iff_true, hins1, hcfg]
      rcases hupd : w.updateTemplateErr with _ | e <;> simp [hupd]
    · refine goContains_of_decomp _ _ a0 (gs "\n" ++ b) ?_
      rw [haNL, hmE, hrl]
      simp [List.append_assoc]
    · obtain ⟨s, t, hst⟩ := hMb
      refine goContains_of_decomp _ _
        (a ++ deleteEnvOpts.execRoleHeader ++ deleteEnvOpts.retainLine ++ s) t ?_
      rw [← hst]
      simp [List.append_assoc]
  · -- the update call comes right after the template read, before deletion
    intro w nb hInit hres hens
    have hv : deleteEnvOpts.validateNoRunningServices w = (none, [.getResources]) := by
      rw [deleteEnvOpts.validateNoRunningServices, hres]
      simp
    rcases hr1 : (deleteEnvOpts.ensureRolesAreRetained w).1 with _ | e
    · have hrpair : deleteEnvOpts.ensureRolesAreRetained w =
          (none, [.getTemplate, .updateTemplate nb]) := by
        rw [Prod.ext_iff]
        exact ⟨hr1, hens⟩
      rcases hd : (deleteEnvOpts.deleteStack w).1 with _ | e
      · rcases hro : (deleteEnvOpts.deleteRoles w).1 with _ | e
        · rw [deleteEnvOpts.Execute, hInit]
          simp only [hv, hrpair, hd, hro]
          rcases hst : deleteEnvOpts.deleteFromStore w with ⟨r5, t5⟩
          simp [List.take_succ_cons]
        · rw [deleteEnvOpts.Execute, hInit]
          simp only [hv, hrpair, hd, hro]
          simp [List.take_succ_cons]
      · rw [deleteEnvOpts.Execute, hInit]
        simp only [hv, hrpair, hd]
        simp [List.take_succ_cons]
    · have hrpair : deleteEnvOpts.ensureRolesAreRetained w =
          (some e, [.getTemplate, .updateTemplate nb]) := by
        rw [Prod.ext_iff]
        exact ⟨hr1, hens⟩
      rw [deleteEnvOpts.Execute, hInit]
      simp only [hv, hrpair]
      simp [List.take_succ_cons]

/-- Fixture: a legacy environment template with no retain block on either
role. -/
def tmplNone : GoStr :=
  gs "Resources:\n  CloudformationExecutionRole:\n    Type: AWS::IAM::Role\n  EnvironmentManagerRole:\n    Type: AWS::IAM::Role\n"

/-- Fixture: an environment template already carrying both retain blocks. -/
def tmplBoth : GoStr :=
  gs "Resources:\n  CloudformationExecutionRole:\n    DeletionPolicy: Retain\n    Type: AWS::IAM::Role\n  EnvironmentManagerRole:\n    DeletionPolicy: Retain\n    Type: AWS::IAM::Role\n"

/-- The part of `tmplNone` before the execution-role header. -/
def healA : GoStr := gs "Resources:\n"

/-- The part of `tmplNone` after the execution-role header. -/
def healB : GoStr :=
  gs "    Type: AWS::IAM::Role\n  EnvironmentManagerRole:\n    Type: AWS::IAM::Role\n"

/-- The part before the manager-role header once the execution-role policy is
inserted. -/
def healC : GoStr :=
  gs "Resources:\n  CloudformationExecutionRole:\n    DeletionPolicy: Retain\n    Type: AWS::IAM::Role\n"

/-- The part after the manager-role header. -/
def healD : GoStr := gs "    Type: AWS::IAM::Role\n"

/-- Fixture: a delete run over the legacy template `tmplNone`, with no
dependent services. -/
def wHeal : DeleteEnvWorld :=
  ⟨gs "demo", gs "test", none, .inr [], .ok tmplNone,
    .inr ⟨gs "execARN", gs "mgrARN"⟩, none, none, fun _ => none, none⟩

/-- Fixture: a delete run over a template already retaining both roles. -/
def wBoth : DeleteEnvWorld :=
  ⟨gs "demo", gs "test", none, .inr [], .ok tmplBoth,
    .inr ⟨gs "execARN", gs "mgrARN"⟩, none, none, fun _ => none, none⟩

/-- Witness for C6 at concrete templates: the legacy template gets exactly one
update carrying both retain blocks, placed right after the template read and
before the stack deletion, while the healthy template gets no update call. -/
theorem envDelete_retain_policy_self_heal_witness :
    (deleteEnvOpts.ensureRolesAreRetained wHeal).2 =
      [.getTemplate, .updateTemplate
        (healC ++ deleteEnvOpts.managerRoleHeader ++ deleteEnvOpts.retainLine ++ healD)] ∧
    goContains (healC ++ deleteEnvOpts.managerRoleHeader ++ deleteEnvOpts.retainLine ++ healD)
      deleteEnvOpts.execRoleRetainMarker = true ∧
    goContains (healC ++ deleteEnvOpts.managerRoleHeader ++ deleteEnvOpts.retainLine ++ healD)
      deleteEnvOpts.managerRoleRetainMarker = true ∧
    deleteEnvOpts.ensureRolesAreRetained wBoth = (none, [.getTemplate]) ∧
    (deleteEnvOpts.Execute wHeal).2.2.take 3 =
      [.getResources, .getTemplate, .updateTemplate
        (healC ++ deleteEnvOpts.managerRoleHeader ++ deleteEnvOpts.retainLine ++ healD)] := by
  have hA := envDelete_retain_policy_self_heal.1 wHeal tmplNone healA (gs "Resources:")
    healB healC
    (gs "Resources:\n  CloudformationExecutionRole:\n    DeletionPolicy: Retain\n    Type: AWS::IAM::Role")
    healD ⟨gs "execARN", gs "mgrARN"⟩ rfl (by decide) (by decide) (by decide) (by decide)
    (by decide) (by decide) (by decide) rfl
  have hB := envDelete_retain_policy_self_heal.2.1 wBoth tmplBoth rfl (by decide) (by decide)
  have hTake := envDelete_retain_policy_self_heal.2.2.2.2 wHeal
    (healC ++ deleteEnvOpts.managerRoleHeader ++ deleteEnvOpts.retainLine ++ healD)
    rfl rfl hA.1
  exact ⟨hA.1, hA.2.1, hA.2.2, hB, hTake⟩
